import Mathlib

/-!
Verification development for `HTML_weekfollowup_generator.py`.

The program is a single reporting transform: it loads a worksheet into a
table, filters rows by state, normalizes missing values and a numeric
priority, groups rows by assignee, orders the groups and the rows, and
renders one HTML document.  The spreadsheet loader (`pd.read_excel`) and
the file write are external I/O; the embedding starts from the loaded
table and models the run as a pure function returning either the document
text or the raised error message.

Cells are modelled as optional strings (`none` = a missing value / NaN;
numeric spreadsheet cells appear through their decimal text).  Machine
floats are out of scope; the derived priority is modelled over integers,
which covers every behaviour the claims exercise.
-/

/-- A spreadsheet cell: `none` models a missing value (pandas `NaN`),
`some s` a value displayed as the string `s`. -/
abbrev Cell := Option String

/-- A row of the loaded sheet: an association list from column name to cell,
mirroring pandas' "mapping from column name to value" per row. -/
abbrev Row := List (String × Cell)

/-- The loaded sheet: its column names (`df.columns`) and its rows. -/
structure Table where
  cols : List String
  rows : List Row
deriving DecidableEq

/-- The state column name `"Etat"` used by the filter (line 60). -/
def etatCol : String := "Etat"

/-- The assignee column name `"Prise en charge par"` (lines 70 and 161). -/
def assigneeCol : String := "Prise en charge par"

/-- The task-type column name `"Type (Machine/Humain/Deux)"` (line 180). -/
def typeCol : String := "Type (Machine/Humain/Deux)"

/-- The caller-supplied configuration of `generate_suivi_html`, with the
function's default values.  `colonnes`/`etats_conserves` are `none` when the
caller omits them, as in the Python signature; the defaults are resolved
inside the function (lines 38-47 and 57-58). -/
structure Config where
  nom_feuille : String := "Suivi Actions"
  ordre_voulu : List String := []
  ingenieurs_en_conge : List String := []
  colonnes : Option (List String) := none
  tri_priorite_ascendant : Bool := true
  page_length : Int := 25
  trier_autres_alpha : Bool := false
  nom_col_priorite_affiche : String := "Priorité"
  etats_conserves : Option (List String) := none
deriving DecidableEq

/-- The display-column list after applying the default of lines 38-47:
the default list places the configured priority display name at index 3. -/
def resolvedColonnes (cfg : Config) : List String :=
  cfg.colonnes.getD
    [ "Bâtiments",
      "Intitulé de l'action",
      "Date souhaitée         (demandeur)",
      cfg.nom_col_priorite_affiche,
      "Avancement de l'action (décision, commentaire,…)",
      "Type (Machine/Humain/Deux)",
      "Etat" ]

/-- The allow-list of kept states after applying the default of lines 57-58. -/
def resolvedEtats (cfg : Config) : List String :=
  cfg.etats_conserves.getD ["En cours", "Non démarrée"]

/-- Column access `row[col]`: the cell stored under `col`.  A column missing
from the row yields `none` (the loader contract guarantees the required
columns exist; see spec §4.1). -/
def rowGet (r : Row) (c : String) : Cell :=
  (List.lookup c r).getD none

/-- `df["Etat"].isin(etats)` on one cell (line 60): a missing value is never
in the allow-list, a present value is tested by membership. -/
def cellIsin (c : Cell) (vals : List String) : Bool :=
  match c with
  | some s => vals.contains s
  | none => false

/-- Line 60: `df = df[df["Etat"].isin(etats_conserves)]` — keep only rows
whose state is allow-listed.  The columns are unchanged. -/
def filteredDf (etats : List String) (df : Table) : Table :=
  ⟨df.cols, df.rows.filter (fun r => cellIsin (rowGet r etatCol) etats)⟩

/-- Line 61: `df = df.fillna("")` on one row — every missing cell becomes the
empty string. -/
def fillnaRow (r : Row) : Row :=
  r.map (fun e => (e.1, some (e.2.getD "")))

/-- Line 61: `df = df.fillna("")` on the whole table. -/
def fillnaTable (df : Table) : Table :=
  ⟨df.cols, df.rows.map fillnaRow⟩

/-- The table after the filter of line 60 and the fillna of line 61. -/
def prepared (cfg : Config) (df : Table) : Table :=
  fillnaTable (filteredDf (resolvedEtats cfg) df)

/-- Decimal-digit list parser: `some n` when the list is a nonempty string of
digits, `none` otherwise. -/
def parseNatDigits : List Char → Option Nat
  | [] => none
  | cs => cs.foldl (fun acc c =>
      match acc with
      | none => none
      | some n => if c.isDigit then some (n * 10 + (c.toNat - 48)) else none)
      (some 0)

/-- Integer text parser modelling `pd.to_numeric(·, errors="coerce")` on the
integer-formatted texts the claims exercise: an optional leading minus sign
followed by digits; anything else (including the empty string) coerces to
`none` (NaN). -/
def parseIntStr (s : String) : Option Int :=
  match s.toList with
  | [] => none
  | c :: cs =>
    if c = '-' then (parseNatDigits cs).map (fun n => -(n : Int))
    else parseNatDigits (c :: cs)

/-- `pd.to_numeric(cell, errors="coerce")`: a missing cell stays missing, a
present cell is parsed, coercing parse failures to missing. -/
def toNumericCoerceInt (c : Cell) : Option Int :=
  c.bind parseIntStr

/-- Line 67: the derived numeric priority
`pd.to_numeric(df[p], errors="coerce").fillna(0).astype(int)` of one row —
parse the priority display column, substituting 0 for missing/unparseable. -/
def prioNum (p : String) (r : Row) : Int :=
  (toNumericCoerceInt (rowGet r p)).getD 0

/-- The scan behind `pandas.unique`: emit each value the first time it is
seen, `seen` accumulating the values already emitted. -/
def uniqueFirstGo (seen : List String) : List String → List String
  | [] => []
  | a :: as =>
    if seen.contains a then uniqueFirstGo seen as
    else a :: uniqueFirstGo (a :: seen) as

/-- `pandas.unique` order: the distinct values of a list, each at its first
occurrence (line 70's `.unique()`). -/
def uniqueFirst (l : List String) : List String :=
  uniqueFirstGo [] l

/-- Line 70: `present = list(df["Prise en charge par"].dropna().unique())` —
the assignee cells of the prepared table, missing values dropped, first-seen
distinct values kept in order. -/
def presentList (cfg : Config) (df : Table) : List String :=
  uniqueFirst (((prepared cfg df).rows.map (fun r => rowGet r assigneeCol)).filterMap id)

/-- Python `sorted` on names (line 73), lexicographic ascending. -/
def sortedAlpha (l : List String) : List String :=
  List.insertionSort (fun a b => a ≤ b) l

/-- Lines 71-73: the present assignees not in the preferred order, optionally
alphabetized. -/
def autresList (cfg : Config) (df : Table) : List String :=
  let aut := (presentList cfg df).filter (fun n => !(cfg.ordre_voulu.contains n))
  if cfg.trier_autres_alpha then sortedAlpha aut else aut

/-- Line 74: `ingenieurs = [n for n in ordre_voulu if n in present] + autres`
— the final section order. -/
def ingenieursList (cfg : Config) (df : Table) : List String :=
  cfg.ordre_voulu.filter (fun n => (presentList cfg df).contains n) ++ autresList cfg df

/-- Line 161: `grp = df[df["Prise en charge par"] == resp]` — the rows of one
engineer. -/
def groupRows (cfg : Config) (df : Table) (resp : String) : List Row :=
  (prepared cfg df).rows.filter (fun r => rowGet r assigneeCol == some resp)

/-- Line 167: `grp.sort_values("__prio_num", ascending=...)` — the rows of a
group ordered by derived priority.  The model sorts stably by the key; the
tie order of the library default (`kind='quicksort'`) is studied separately
with `sortValuesNp` below, which shows it is *not* stable. -/
def sortValuesModel (asc : Bool) (p : String) (rows : List Row) : List Row :=
  if asc then List.insertionSort (fun a b => prioNum p a ≤ prioNum p b) rows
  else List.insertionSort (fun a b => prioNum p b ≤ prioNum p a) rows

/-- The task rows rendered in one engineer's section (lines 161-167). -/
def sectionRows (cfg : Config) (df : Table) (resp : String) : List Row :=
  sortValuesModel cfg.tri_priorite_ascendant cfg.nom_col_priorite_affiche
    (groupRows cfg df resp)

/-- The task rows emitted into table bodies over the whole report, in
document order: for each engineer in section order, nothing when on leave
(lines 157-159), otherwise the sorted group (lines 161-186). -/
def renderedRows (cfg : Config) (df : Table) : List Row :=
  ((ingenieursList cfg df).map (fun resp =>
    if cfg.ingenieurs_en_conge.contains resp then [] else sectionRows cfg df resp)).flatten

/-- The assignee string of a (prepared) row; the empty string when absent. -/
def keyStr (r : Row) : String :=
  (rowGet r assigneeCol).getD ""

/-- The double-quote character (escaped by `html.escape`). -/
def dquoteChar : Char := Char.ofNat 34

/-- The single-quote character (escaped by `html.escape`). -/
def squoteChar : Char := Char.ofNat 39

/-- `html.escape` on one character (quote=True, the default): `&`, `<`, `>`,
`"` and `'` are replaced by their entities. -/
def escChar (c : Char) : String :=
  if c = '&' then "&amp;"
  else if c = '<' then "&lt;"
  else if c = '>' then "&gt;"
  else if c = dquoteChar then "&quot;"
  else if c = squoteChar then "&#x27;"
  else String.singleton c

/-- Line 184's `html.escape(str(val))`: every markup character of the text is
replaced by its entity. -/
def htmlEscape (s : String) : String :=
  String.join (s.toList.map escChar)

/-- Line 148: `ICON = {"Machine": "⚙️", "Humain": "👤", "Deux": "🤝"}`. -/
def ICON : List (String × String) :=
  [("Machine", "⚙️"), ("Humain", "👤"), ("Deux", "🤝")]

/-- `ICON.get(v, '')` (line 181): the glyph of a task-type value, defaulting
to the empty string. -/
def iconGet (v : String) : String :=
  (List.lookup v ICON).getD ""

/-- `str(row[col])` for a prepared row: rendering happens after `fillna`, so
every cell holds a string; an absent value renders as the empty string. -/
def cellStr (c : Cell) : String :=
  c.getD ""

/-- Lines 178-183: the text of one table cell before escaping — the derived
integer for the priority column, glyph-space-value for the task-type column,
the cell text otherwise. -/
def renderCellVal (p : String) (col : String) (r : Row) : String :=
  if col == p then toString (prioNum p r)
  else if col == typeCol then iconGet (cellStr (rowGet r col)) ++ " " ++ cellStr (rowGet r col)
  else cellStr (rowGet r col)

/-- Line 184: the rendered cell text, HTML-escaped. -/
def renderCell (p : String) (col : String) (r : Row) : String :=
  htmlEscape (renderCellVal p col r)

/-- Lines 175-186: one `<tr>` of a task table. -/
def renderRow (p : String) (colonnes : List String) (r : Row) : String :=
  "<tr>" ++ String.join (colonnes.map (fun col => "<td>" ++ renderCell p col r ++ "</td>")) ++ "</tr>\n"

/-- Lines 170-173: the table opening and header cells. -/
def tableHeader (colonnes : List String) : String :=
  "<table class='display'><thead><tr>\n"
  ++ String.join (colonnes.map (fun col => "  <th>" ++ col ++ "</th>\n"))
  ++ "</tr></thead><tbody>\n"

/-- Lines 170-188: one engineer's task table. -/
def tableHtml (cfg : Config) (rows : List Row) : String :=
  tableHeader (resolvedColonnes cfg)
  ++ String.join (rows.map (renderRow cfg.nom_col_priorite_affiche (resolvedColonnes cfg)))
  ++ "</tbody></table>\n"

/-- `nom.replace(" ", "_")` (lines 136 and 154): the anchor slug — every
space becomes an underscore, all other characters pass through. -/
def slug (nom : String) : String :=
  String.mk (nom.toList.map (fun c => if c = ' ' then '_' else c))

/-- Line 137: one navigation entry; the anchor replaces spaces by
underscores, and neither the anchor nor the label is escaped. -/
def navItem (nom : String) : String :=
  "    <li><a href='#" ++ slug nom ++ "'>" ++ nom ++ "</a></li>\n"

/-- Line 153: the separator before each section. -/
def hrLine : String :=
  "<hr style='margin:40px 0; border:none; border-top:1px solid #ccc;'/>\n"

/-- Line 154: a section heading; the anchor slug and the name are inserted
without escaping. -/
def h2Line (resp : String) : String :=
  "<h2 id='" ++ slug resp ++ "'>Actions de " ++ resp ++ "</h2>\n"

/-- Line 158: the on-leave placeholder. -/
def congeLine : String :=
  "<p class='en-conge'>En congé — pas d'actions listées pour cette période.</p>\n"

/-- Line 163: the empty-section placeholder. -/
def aucuneLine : String :=
  "<p class='en-conge'>Aucune action à afficher.</p>\n"

/-- Lines 139-146: the block closing the navigation and stating the reading
conventions. -/
def navClose : String :=
  "  </ul>
</nav>

<p><strong>Conventions de lecture du tableau :</strong></p>
<ul>
  <li><strong>Actions “Machine”</strong> : Toute action de calcul machine dont les données sont prêtes doit être priorisée, car il s’agit de temps machine et non de temps humain.</li>
</ul>
"

/-- Line 117's hard-coded initial sort column of the DataTables
configuration: the literal `3`, not computed from the display-column list. -/
def dtOrderColumn : Nat := 3

/-- Line 77: `order_dir = 'asc' if tri_priorite_ascendant else 'desc'`. -/
def orderDir (tri : Bool) : String :=
  if tri then "asc" else "desc"

/-- Head template, part before the first `{today}` (lines 78-82). -/
def htmlHeadA : String :=
  "<!DOCTYPE html>
<html lang=\"fr\">
<head>
<meta charset=\"utf-8\">
<title>Suivi des actions – "

/-- Head template, between `{today}` and `{page_length}` (lines 82-115). -/
def htmlHeadB : String :=
  "</title>
<link rel=\"stylesheet\" href=\"https://cdn.datatables.net/1.13.4/css/jquery.dataTables.min.css\"/>
<script src=\"https://code.jquery.com/jquery-3.6.0.min.js\"></script>
<script src=\"https://cdn.datatables.net/1.13.4/js/jquery.dataTables.min.js\"></script>
<style>
  body \x7b font-family: Arial, sans-serif; margin:20px; \x7d
  h1, h2 \x7b font-family: Arial, sans-serif; \x7d
  .toc ul \x7b
    display: flex; flex-wrap: wrap; gap: 8px;
    padding: 0; margin: 0 0 30px 0;
  \x7d
  .toc li \x7b list-style: none; \x7d
  .toc a \x7b
    display: block;
    padding: 6px 12px;
    background: #f2f2f2;
    border-radius: 20px;
    text-decoration: none;
    color: #0066cc;
    transition: background 0.2s;
  \x7d
  .toc a:hover \x7b background: #ddeeff; \x7d
  table \x7b table-layout: fixed; width:100%; border-collapse: collapse; margin-bottom:40px; \x7d
  th, td \x7b padding:6px; border:1px solid #ddd; word-wrap: break-word; \x7d
  th \x7b background:#e6e6e6; font-size:14px; text-align:left; \x7d
  td \x7b font-size:12px; text-align:left; white-space: pre-wrap; \x7d
  .en-conge \x7b color:#a00; font-style: italic; margin: 6px 0 16px 0; \x7d
</style>
<script>
$(document).ready(function() \x7b
    $('table.display').each(function() \x7b
      $(this).DataTable(\x7b
        paging:      true,
        pageLength:  "

/-- Head template, between `{page_length}` and the sort-column index
(lines 115-117). -/
def htmlHeadC : String :=
  ",
        ordering:    true,
        order:       [["

/-- Head template, between the sort-column index and `{order_dir}`
(line 117). -/
def htmlHeadC2 : String := ", '"

/-- Head template, between `{order_dir}` and the second `{today}`
(lines 117-128). -/
def htmlHeadD : String :=
  "']],      // tri sur la colonne Priorité
        columnDefs:  [\x7b targets: 3, type: 'num' \x7d],
        fixedHeader: true,
        scrollX:     true,
        language:    \x7b url: 'https://cdn.datatables.net/plug-ins/1.13.4/i18n/fr-FR.json' \x7d
      \x7d);
    \x7d);
\x7d);
</script>
</head>
<body>
<h1>Suivi des actions – "

/-- Head template, after the second `{today}` (lines 128-132). -/
def htmlHeadE : String :=
  "</h1>

<nav class=\"toc\">
  <ul>
"

/-- Lines 78-132: the document head, the f-string template applied to the
run date, the caller's page length, the hard-coded sort column and the sort
direction. -/
def htmlHead (today : String) (page_length : Int) (odir : String) : String :=
  htmlHeadA ++ today ++ htmlHeadB ++ toString page_length ++ htmlHeadC
  ++ toString dtOrderColumn ++ htmlHeadC2 ++ odir ++ htmlHeadD ++ today ++ htmlHeadE

/-- Lines 151-163 and 170-188: one engineer's section — separator, heading,
then a leave placeholder, an empty-group placeholder, or the task table. -/
def sectionHtml (cfg : Config) (df : Table) (resp : String) : String :=
  hrLine ++ h2Line resp ++
  (if cfg.ingenieurs_en_conge.contains resp then congeLine
   else if (groupRows cfg df resp).isEmpty then aucuneLine
   else tableHtml cfg (sectionRows cfg df resp))

/-- Lines 78-190: the whole document text. -/
def htmlOutput (cfg : Config) (today : String) (df : Table) : String :=
  htmlHead today cfg.page_length (orderDir cfg.tri_priorite_ascendant)
  ++ String.join ((ingenieursList cfg df).map navItem)
  ++ navClose
  ++ String.join ((ingenieursList cfg df).map (sectionHtml cfg df))
  ++ "</body>\n</html>"

/-- Line 66's error message: it names the missing column and the sheet. -/
def colErrorMsg (cfg : Config) : String :=
  "La colonne '" ++ cfg.nom_col_priorite_affiche
  ++ "' est introuvable dans la feuille '" ++ cfg.nom_feuille ++ "'."

/-- The run on a loaded table: filter (line 60), fillna (line 61), the
priority-column check (lines 65-66) raising `ValueError` as `.error`, then
the rendered document as `.ok`.  The file write of lines 193-194 happens
only on the `.ok` branch (see `writtenFile`). -/
def generateSuivi (cfg : Config) (today : String) (df : Table) : Except String String :=
  if (fillnaTable (filteredDf (resolvedEtats cfg) df)).cols.contains cfg.nom_col_priorite_affiche
  then .ok (htmlOutput cfg today df)
  else .error (colErrorMsg cfg)

/-- The content written to the output file: the document on success, nothing
when the run raises before reaching the write (lines 193-194 come after the
check of lines 65-66). -/
def writtenFile (cfg : Config) (today : String) (df : Table) : Option String :=
  (generateSuivi cfg today df).toOption

/-!
Model of the sort `grp.sort_values("__prio_num", ascending=...)` actually
performs.  `DataFrame.sort_values` with its default `kind='quicksort'`
argsorts the key column with numpy's introsort
(`npysort/quicksort.c.src`, `aquicksort_`): median-of-3 Hoare partition on
an index array, insertion sort for partitions of at most
`SMALL_QUICKSORT + 1 = 16` slots, heapsort (`aheapsort_`) once the depth
budget `2 * msb(n)` is spent.  The loops are modelled with explicit fuel
chosen to match the C loop bounds; the depth budget is threaded through the
recursion exactly as the C code's single `depth_limit` counter.  This sort
is *not* stable: partitioning swaps equal keys across the pivot.
-/

/-- numpy's `SMALL_QUICKSORT` threshold (`npysort_common.h`). -/
def smallQuicksort : Nat := 15

/-- `INTP_SWAP` of two slots of the index array. -/
def aswap (t : Array Nat) (i j : Nat) : Array Nat :=
  let vi := t.getD i 0
  let vj := t.getD j 0
  (t.setD i vj).setD j vi

/-- `v[t[s]]`: the key stored at slot `s` of the index array. -/
def akey (v : Array Int) (t : Array Nat) (s : Nat) : Int :=
  v.getD (t.getD s 0) 0

/-- The inner shift of `aquicksort_`'s insertion sort:
`while (pj > pl && LT(vp, v[*pk])) *pj-- = *pk--;`. -/
def insShift (v : Array Int) (pl : Nat) (vp : Int) : Array Nat → Nat → Nat → Array Nat × Nat
  | t, pj, 0 => (t, pj)
  | t, pj, fuel+1 =>
    if pl < pj ∧ vp < akey v t (pj - 1) then
      insShift v pl vp (t.setD pj (t.getD (pj - 1) 0)) (pj - 1) fuel
    else (t, pj)

/-- The outer loop of `aquicksort_`'s insertion sort:
`for (pi = pl + 1; pi <= pr; ++pi)`. -/
def insLoop (v : Array Int) (pl pr : Nat) : Array Nat → Nat → Nat → Array Nat
  | t, _, 0 => t
  | t, pi, fuel+1 =>
    if pi ≤ pr then
      let vi := t.getD pi 0
      let vp := v.getD vi 0
      let s := insShift v pl vp t pi pi
      insLoop v pl pr (s.1.setD s.2 vi) (pi + 1) fuel
    else t

/-- Indirect insertion sort of the slots `pl..pr` (the `SMALL_QUICKSORT`
branch of `aquicksort_`). -/
def npInsertion (v : Array Int) (t : Array Nat) (pl pr : Nat) : Array Nat :=
  insLoop v pl pr t (pl + 1) (pr + 2 - pl)

/-- `do ++pi; while (LT(v[*pi], vp));` — the left partition scan. -/
def scanI (v : Array Int) (vp : Int) (t : Array Nat) : Nat → Nat → Nat
  | pi, 0 => pi + 1
  | pi, fuel+1 => if akey v t (pi + 1) < vp then scanI v vp t (pi + 1) fuel else pi + 1

/-- `do --pj; while (LT(vp, v[*pj]));` — the right partition scan. -/
def scanJ (v : Array Int) (vp : Int) (t : Array Nat) : Nat → Nat → Nat
  | pj, 0 => pj - 1
  | pj, fuel+1 => if vp < akey v t (pj - 1) then scanJ v vp t (pj - 1) fuel else pj - 1

/-- The Hoare partition loop of `aquicksort_`: scan, break when the pointers
cross, otherwise swap and continue; returns the crossing slot `pi`. -/
def partLoop (v : Array Int) (vp : Int) : Array Nat → Nat → Nat → Nat → Array Nat × Nat
  | t, pi, _, 0 => (t, pi)
  | t, pi, pj, fuel+1 =>
    let i := scanI v vp t pi t.size
    let j := scanJ v vp t pj t.size
    if i ≥ j then (t, i)
    else partLoop v vp (aswap t i j) i j fuel

/-- The sift loop shared by `aheapsort_`'s heapify and extraction phases,
on the 1-based view `a[i] = t[pl + i - 1]` of the segment. -/
def heapSift (v : Array Int) (pl n : Nat) (tmpv : Int) : Array Nat → Nat → Nat → Nat → Array Nat × Nat
  | t, i, _, 0 => (t, i)
  | t, i, j, fuel+1 =>
    if j ≤ n then
      let j' := if j < n ∧ akey v t (pl + j - 1) < akey v t (pl + j) then j + 1 else j
      if tmpv < akey v t (pl + j' - 1) then
        heapSift v pl n tmpv (t.setD (pl + i - 1) (t.getD (pl + j' - 1) 0)) j' (2 * j') fuel
      else (t, i)
    else (t, i)

/-- `aheapsort_`'s heapify phase: `for (l = n >> 1; l > 0; --l)`. -/
def heapifyLoop (v : Array Int) (pl n : Nat) : Array Nat → Nat → Array Nat
  | t, 0 => t
  | t, l+1 =>
    let li := l + 1
    let tmp := t.getD (pl + li - 1) 0
    let s := heapSift v pl n (v.getD tmp 0) t li (2 * li) (n + 2)
    heapifyLoop v pl n (s.1.setD (pl + s.2 - 1) tmp) l

/-- `aheapsort_`'s extraction phase: `for (; n > 1;)`, swapping the root out
and sifting the heap of the remaining `n - 1` elements. -/
def extractLoop (v : Array Int) (pl : Nat) : Array Nat → Nat → Array Nat
  | t, 0 => t
  | t, 1 => t
  | t, m+2 =>
    let mm := m + 2
    let tmp := t.getD (pl + mm - 1) 0
    let t1 := t.setD (pl + mm - 1) (t.getD pl 0)
    let s := heapSift v pl (mm - 1) (v.getD tmp 0) t1 1 2 (mm + 2)
    extractLoop v pl (s.1.setD (pl + s.2 - 1) tmp) (m + 1)

/-- Indirect heapsort of the slots `pl..pr` (`aheapsort_`). -/
def aheapsortSeg (v : Array Int) (t : Array Nat) (pl pr : Nat) : Array Nat :=
  let n := pr + 1 - pl
  extractLoop v pl (heapifyLoop v pl n t (n / 2)) n

/-- One `aquicksort_` segment: insertion sort when the segment has at most
16 slots, heapsort when the shared depth budget is spent, otherwise a
median-of-3 Hoare partition step followed by the two sub-segments, smaller
side first as the C stack discipline does; returns the index array and the
remaining depth budget. -/
def aqsortSeg (v : Array Int) : Array Nat → Nat → Nat → Nat → Nat → Array Nat × Nat
  | t, _, _, depth, 0 => (t, depth)
  | t, pl, pr, depth, fuel+1 =>
    if pr ≤ pl + smallQuicksort then (npInsertion v t pl pr, depth)
    else
      match depth with
      | 0 => (aheapsortSeg v t pl pr, 0)
      | depth'+1 =>
        let pm := pl + (pr - pl) / 2
        let t1 := if akey v t pm < akey v t pl then aswap t pm pl else t
        let t2 := if akey v t1 pr < akey v t1 pm then aswap t1 pr pm else t1
        let t3 := if akey v t2 pm < akey v t2 pl then aswap t2 pm pl else t2
        let vp := akey v t3 pm
        let t4 := aswap t3 pm (pr - 1)
        let s := partLoop v vp t4 pl (pr - 1) (t4.size + 1)
        let pi := s.2
        let t5 := aswap s.1 pi (pr - 1)
        if pi - pl < pr - pi then
          let u := aqsortSeg v t5 pl (pi - 1) depth' fuel
          aqsortSeg v u.1 (pi + 1) pr u.2 fuel
        else
          let u := aqsortSeg v t5 (pi + 1) pr depth' fuel
          aqsortSeg v u.1 pl (pi - 1) u.2 fuel

/-- `np.argsort(v, kind='quicksort')` on an integer key column: the
permutation of `0..n-1` numpy's introsort produces.  The recursion fuel
`2 * log2 n + 3` bounds the call depth, which the shared depth budget
`2 * msb(n)` plus the terminal level caps. -/
def npArgsortQuicksort (v : List Int) : List Nat :=
  let n := v.length
  if n = 0 then []
  else
    ((aqsortSeg v.toArray (List.range n).toArray 0 (n - 1)
        (2 * Nat.log2 n + 1) (2 * Nat.log2 n + 3)).1).toList

/-- pandas `nargsort(key, kind='quicksort', ascending)` for a column with no
missing values: the ascending argsort, or for descending the argsort of the
reversed keys mapped back through the reversal and reversed. -/
def nargsortNp (keys : List Int) (ascending : Bool) : List Nat :=
  if ascending then npArgsortQuicksort keys
  else
    let n := keys.length
    ((npArgsortQuicksort keys.reverse).map (fun i => n - 1 - i)).reverse

/-- Line 167 with the library's actual tie behaviour:
`grp.sort_values("__prio_num", ascending=...)` reorders the group's rows by
the `nargsort` permutation of the derived priorities. -/
def sortValuesNp (p : String) (asc : Bool) (rows : List Row) : List Row :=
  (nargsortNp (rows.map (prioNum p)) asc).filterMap (fun i => rows.get? i)

/-!
Spec-side definitions.  These follow the words of the specification, not the
code; the refinement theorems below compare them with the definitions
translated from the source.
-/

/-- Spec reading of "first-seen order": fold the values left to right,
appending each name the first time it is seen. -/
def specFirstSeen (l : List String) : List String :=
  l.foldl (fun acc n => if acc.contains n then acc else acc ++ [n]) []

/-- Spec reading of "occurs as an assignee in the filtered data": some
prepared row carries the name. -/
def specOccursAsAssignee (cfg : Config) (df : Table) (n : String) : Bool :=
  (prepared cfg df).rows.any (fun r => rowGet r assigneeCol == some n)

/-- Spec reading of the section order: the preferred names that occur as
assignees, in the preferred list's order, followed by the remaining
first-seen assignee names, alphabetized exactly when the flag is set. -/
def specSectionOrder (cfg : Config) (df : Table) : List String :=
  let firstSeen :=
    specFirstSeen (((prepared cfg df).rows.map (fun r => rowGet r assigneeCol)).filterMap id)
  let rest := firstSeen.filter (fun n => !(cfg.ordre_voulu.contains n))
  cfg.ordre_voulu.filter (specOccursAsAssignee cfg df)
  ++ (if cfg.trier_autres_alpha then sortedAlpha rest else rest)

/-- Spec reading of one cell's text (claim C8): the derived integer for the
priority column; for the task-type column the glyph of the three recognized
values (nothing otherwise), then a space, then the value; the cell text
otherwise. -/
def specCellText (p : String) (col : String) (r : Row) : String :=
  if col == p then toString (prioNum p r)
  else if col == typeCol then
    (if cellStr (rowGet r col) == "Machine" then "⚙️"
     else if cellStr (rowGet r col) == "Humain" then "👤"
     else if cellStr (rowGet r col) == "Deux" then "🤝"
     else "") ++ " " ++ cellStr (rowGet r col)
  else cellStr (rowGet r col)

/-!
Concrete fixtures used by witnesses and counterexamples.
-/

/-- A loaded-sheet fixture: two kept rows for Alice (one with an unparseable
priority), one excluded row for Bob. -/
def exTable : Table :=
  ⟨["Etat", "Prise en charge par", "Priorité", "Type (Machine/Humain/Deux)"],
   [[("Etat", some "En cours"), ("Prise en charge par", some "Alice"),
     ("Priorité", some "2"), ("Type (Machine/Humain/Deux)", some "Machine")],
    [("Etat", some "Non démarrée"), ("Prise en charge par", some "Alice"),
     ("Priorité", some "TBD"), ("Type (Machine/Humain/Deux)", some "Humain")],
    [("Etat", some "Terminée"), ("Prise en charge par", some "Bob"),
     ("Priorité", some "1"), ("Type (Machine/Humain/Deux)", some "Deux")]]⟩

/-- The all-defaults configuration. -/
def exCfg : Config := {}

/-- Configuration with Bob on leave (all else default). -/
def cfgConge : Config := { ingenieurs_en_conge := ["Bob"] }

/-- A kept row whose assignee cell is missing. -/
def rowNoAssignee : Row :=
  [("Etat", some "En cours"), ("Prise en charge par", none), ("Priorité", some "1")]

/-- A kept row assigned to Bob. -/
def rowBob : Row :=
  [("Etat", some "En cours"), ("Prise en charge par", some "Bob"), ("Priorité", some "2")]

/-- Table holding `rowNoAssignee` and `rowBob`. -/
def dfC1 : Table :=
  ⟨["Etat", "Prise en charge par", "Priorité"], [rowNoAssignee, rowBob]⟩

/-- A kept row whose priority cell holds the negative number `-3`. -/
def rowNeg : Row :=
  [("Etat", some "En cours"), ("Prise en charge par", some "Alice"), ("Priorité", some "-3")]

/-- Table holding `rowNeg`. -/
def dfNeg : Table :=
  ⟨["Etat", "Prise en charge par", "Priorité"], [rowNeg]⟩

/-- A loaded sheet without the default priority column `"Priorité"`. -/
def dfNoPrio : Table :=
  ⟨["Etat", "Prise en charge par"],
   [[("Etat", some "En cours"), ("Prise en charge par", some "Alice")]]⟩

/-- Seventeen kept rows for one engineer, all with derived priority 1 and
pairwise distinct titles: one more row than the quicksort insertion-sort
threshold. -/
def rows17 : List Row :=
  (List.range 17).map (fun i =>
    [("Etat", some "En cours"), ("Prise en charge par", some "Alice"),
     ("Intitulé de l'action", some (toString i)), ("Priorité", some "1")])

/-- Table holding exactly the seventeen tied rows. -/
def dfRows17 : Table :=
  ⟨["Etat", "Prise en charge par", "Intitulé de l'action", "Priorité"], rows17⟩

/-- Configuration whose display-column list puts the priority column at
index 0, not 3. -/
def cfgColsSwapped : Config := { colonnes := some ["Priorité", "Etat"] }

/-!
Helper lemmas.
-/

theorem contains_iff_mem {l : List String} {a : String} :
    l.contains a = true ↔ a ∈ l := by
  simp

theorem mem_uniqueFirstGo {a : String} {l : List String} : ∀ {seen : List String},
    a ∈ uniqueFirstGo seen l ↔ a ∈ l ∧ a ∉ seen := by
  induction l with
  | nil => intro seen; simp [uniqueFirstGo]
  | cons b bs ih =>
    intro seen
    unfold uniqueFirstGo
    by_cases hb : seen.contains b = true
    · rw [if_pos hb, ih]
      constructor
      · rintro ⟨h1, h2⟩
        exact ⟨List.mem_cons_of_mem _ h1, h2⟩
      · rintro ⟨h1, h2⟩
        rcases List.mem_cons.mp h1 with rfl | h1
        · exact absurd (contains_iff_mem.mp hb) h2
        · exact ⟨h1, h2⟩
    · rw [if_neg hb]
      simp only [List.mem_cons, ih]
      constructor
      · rintro (rfl | ⟨h1, h2⟩)
        · exact ⟨Or.inl rfl, fun hmem => hb (contains_iff_mem.mpr hmem)⟩
        · exact ⟨Or.inr h1, fun hm => h2 (Or.inr hm)⟩
      · rintro ⟨h1, h2⟩
        rcases h1 with rfl | h1
        · exact Or.inl rfl
        · by_cases hab : a = b
          · exact Or.inl hab
          · exact Or.inr ⟨h1, by simp [hab, h2]⟩

theorem mem_uniqueFirst {a : String} {l : List String} :
    a ∈ uniqueFirst l ↔ a ∈ l := by
  unfold uniqueFirst
  rw [mem_uniqueFirstGo]
  simp

theorem nodup_uniqueFirstGo {l : List String} : ∀ {seen : List String},
    (uniqueFirstGo seen l).Nodup := by
  induction l with
  | nil => intro seen; simp [uniqueFirstGo]
  | cons b bs ih =>
    intro seen
    unfold uniqueFirstGo
    by_cases hb : seen.contains b = true
    · rw [if_pos hb]; exact ih
    · rw [if_neg hb]
      refine List.nodup_cons.mpr ⟨?_, ih⟩
      intro hmem
      exact (mem_uniqueFirstGo.mp hmem).2 (List.mem_cons_self b seen)

theorem nodup_uniqueFirst (l : List String) : (uniqueFirst l).Nodup :=
  nodup_uniqueFirstGo

theorem perm_sortValuesModel (asc : Bool) (p : String) (rows : List Row) :
    (sortValuesModel asc p rows).Perm rows := by
  unfold sortValuesModel
  split
  · exact List.perm_insertionSort _ _
  · exact List.perm_insertionSort _ _

theorem mem_presentList {cfg : Config} {df : Table} {n : String} :
    n ∈ presentList cfg df ↔ ∃ r ∈ (prepared cfg df).rows, rowGet r assigneeCol = some n := by
  unfold presentList
  rw [mem_uniqueFirst]
  simp only [List.mem_filterMap, List.mem_map, id]
  constructor
  · rintro ⟨c, ⟨r, hr, rfl⟩, hc⟩
    exact ⟨r, hr, hc⟩
  · rintro ⟨r, hr, hc⟩
    exact ⟨rowGet r assigneeCol, ⟨r, hr, rfl⟩, hc⟩

theorem mem_sortedAlpha {l : List String} {a : String} :
    a ∈ sortedAlpha l ↔ a ∈ l :=
  (List.perm_insertionSort _ l).mem_iff

theorem mem_autresList {cfg : Config} {df : Table} {n : String} :
    n ∈ autresList cfg df ↔ n ∈ presentList cfg df ∧ n ∉ cfg.ordre_voulu := by
  unfold autresList
  constructor
  · intro h
    have h' : n ∈ (presentList cfg df).filter (fun m => !(cfg.ordre_voulu.contains m)) := by
      by_cases ha : cfg.trier_autres_alpha <;> simp_all [mem_sortedAlpha]
    have hf := List.mem_filter.mp h'
    simp at hf
    exact hf
  · rintro ⟨hp, ho⟩
    have h' : n ∈ (presentList cfg df).filter (fun m => !(cfg.ordre_voulu.contains m)) :=
      List.mem_filter.mpr ⟨hp, by simp [ho]⟩
    by_cases ha : cfg.trier_autres_alpha <;> simp_all [mem_sortedAlpha]

theorem mem_ingenieursList {cfg : Config} {df : Table} {n : String} :
    n ∈ ingenieursList cfg df ↔ n ∈ presentList cfg df := by
  unfold ingenieursList
  rw [List.mem_append]
  constructor
  · rintro (h | h)
    · exact contains_iff_mem.mp (List.mem_filter.mp h).2
    · exact (mem_autresList.mp h).1
  · intro hp
    by_cases ho : n ∈ cfg.ordre_voulu
    · exact Or.inl (List.mem_filter.mpr ⟨ho, contains_iff_mem.mpr hp⟩)
    · exact Or.inr (mem_autresList.mpr ⟨hp, ho⟩)

theorem nodup_ingenieursList {cfg : Config} {df : Table}
    (h : cfg.ordre_voulu.Nodup) : (ingenieursList cfg df).Nodup := by
  unfold ingenieursList
  refine List.Nodup.append (h.filter _) ?_ ?_
  · unfold autresList
    have hbase : ((presentList cfg df).filter (fun m => !(cfg.ordre_voulu.contains m))).Nodup :=
      (nodup_uniqueFirst _).filter _
    by_cases ha : cfg.trier_autres_alpha
    · simpa [ha] using ((List.perm_insertionSort _ _).nodup_iff).mpr hbase
    · simpa [ha] using hbase
  · intro a ha hb
    have h1 : a ∈ cfg.ordre_voulu := (List.mem_filter.mp ha).1
    exact absurd h1 (mem_autresList.mp hb).2

theorem foldl_firstSeen_general (l : List String) : ∀ (acc seen : List String),
    (∀ b, seen.contains b = acc.contains b) →
    l.foldl (fun acc n => if acc.contains n then acc else acc ++ [n]) acc
    = acc ++ uniqueFirstGo seen l := by
  induction l with
  | nil => intro acc seen _; simp [uniqueFirstGo]
  | cons a as ih =>
    intro acc seen hinv
    simp only [List.foldl_cons]
    unfold uniqueFirstGo
    by_cases h : acc.contains a = true
    · have hs : seen.contains a = true := by rw [hinv a]; exact h
      rw [if_pos h, if_pos hs]
      exact ih acc seen hinv
    · have hs : ¬(seen.contains a = true) := by rw [hinv a]; exact h
      rw [if_neg h, if_neg hs, ih (acc ++ [a]) (a :: seen) ?_, List.append_assoc]
      · rfl
      · intro b
        have hc1 : (a :: seen).contains b = ((b == a) || seen.contains b) := by
          simp only [List.contains_eq_any_beq, List.any_cons]
        have hc2 : (acc ++ [a]).contains b = (acc.contains b || (b == a)) := by
          simp only [List.contains_eq_any_beq, List.any_append, List.any_cons, List.any_nil,
            Bool.or_false]
        rw [hc1, hc2, hinv b, Bool.or_comm]

theorem specFirstSeen_eq_uniqueFirst (l : List String) :
    specFirstSeen l = uniqueFirst l := by
  unfold specFirstSeen uniqueFirst
  rw [foldl_firstSeen_general l [] [] (fun b => rfl), List.nil_append]

theorem presentList_contains_eq (cfg : Config) (df : Table) (n : String) :
    (presentList cfg df).contains n = specOccursAsAssignee cfg df n := by
  rcases hb : specOccursAsAssignee cfg df n with _ | _
  · rw [← hb]
    by_contra hc
    have h1 : (presentList cfg df).contains n = true := by
      revert hc; cases (presentList cfg df).contains n <;> simp [hb]
    have h2 := mem_presentList.mp (contains_iff_mem.mp h1)
    obtain ⟨r, hr, hget⟩ := h2
    have : specOccursAsAssignee cfg df n = true := by
      unfold specOccursAsAssignee
      rw [List.any_eq_true]
      exact ⟨r, hr, by simp [hget]⟩
    rw [hb] at this
    exact Bool.false_ne_true this
  · obtain ⟨r, hr, hp⟩ := List.any_eq_true.mp hb
    have hget : rowGet r assigneeCol = some n := by
      exact (beq_iff_eq).mp hp
    exact contains_iff_mem.mpr (mem_presentList.mpr ⟨r, hr, hget⟩)

/-- Claim C4: the section order equals the spec's description — preferred
names occurring as assignees, in the preferred list's order, then the
remaining first-seen assignee names, alphabetized exactly when the flag is
set. -/
theorem c4_section_order (cfg : Config) (df : Table) :
    ingenieursList cfg df = specSectionOrder cfg df := by
  unfold ingenieursList specSectionOrder autresList
  rw [specFirstSeen_eq_uniqueFirst]
  congr 1
  exact List.filter_congr (fun n _ => presentList_contains_eq cfg df n)

theorem groupRows_ne_nil {cfg : Config} {df : Table} {n : String}
    (h : n ∈ presentList cfg df) : groupRows cfg df n ≠ [] := by
  obtain ⟨r, hr, hget⟩ := mem_presentList.mp h
  have : r ∈ groupRows cfg df n :=
    List.mem_filter.mpr ⟨hr, by simp [hget]⟩
  exact List.ne_nil_of_mem this

theorem sectionRows_ne_nil {cfg : Config} {df : Table} {n : String}
    (h : n ∈ presentList cfg df) : sectionRows cfg df n ≠ [] := by
  intro hnil
  have hperm : (sectionRows cfg df n).Perm (groupRows cfg df n) :=
    perm_sortValuesModel cfg.tri_priorite_ascendant
      cfg.nom_col_priorite_affiche (groupRows cfg df n)
  rw [hnil] at hperm
  exact groupRows_ne_nil h (hperm.nil_eq).symm

/-- Claim C9: a name appears among the report's sections (the navigation
list and the headings are both mapped over `ingenieursList`) exactly when
some kept row carries it as assignee; consequently a name in the on-leave
set that is absent from the filtered data gets no section at all, and every
listed engineer's group is nonempty, so the empty-section placeholder of
line 163 never renders: a section of an engineer not on leave always shows
its task table. -/
theorem c9_sections_iff_present (cfg : Config) (df : Table) (n : String) :
    (n ∈ ingenieursList cfg df
      ↔ ∃ r ∈ (prepared cfg df).rows, rowGet r assigneeCol = some n)
    ∧ (n ∈ ingenieursList cfg df → groupRows cfg df n ≠ [])
    ∧ (n ∈ ingenieursList cfg df → cfg.ingenieurs_en_conge.contains n = false →
        sectionHtml cfg df n = hrLine ++ h2Line n ++ tableHtml cfg (sectionRows cfg df n)) := by
  refine ⟨mem_ingenieursList.trans mem_presentList, ?_, ?_⟩
  · intro h
    exact groupRows_ne_nil (mem_ingenieursList.mp h)
  · intro h hc
    unfold sectionHtml
    rw [hc]
    have hne : groupRows cfg df n ≠ [] := groupRows_ne_nil (mem_ingenieursList.mp h)
    have hemp : (groupRows cfg df n).isEmpty = false := by
      rcases hg : groupRows cfg df n with _ | ⟨a, as⟩
      · exact absurd hg hne
      · rfl
    rw [hemp]
    simp

/-- Witness for C9 at a concrete input: Alice is listed because a kept row
carries her name, and her section renders a table. -/
theorem c9_witness :
    ("Alice" ∈ ingenieursList exCfg exTable
      ∧ exCfg.ingenieurs_en_conge.contains "Alice" = false)
    ∧ groupRows exCfg exTable "Alice" ≠ []
    ∧ sectionHtml exCfg exTable "Alice"
        = hrLine ++ h2Line "Alice" ++ tableHtml exCfg (sectionRows exCfg exTable "Alice") :=
  ⟨⟨by decide, by decide⟩,
   (c9_sections_iff_present exCfg exTable "Alice").2.1 (by decide),
   (c9_sections_iff_present exCfg exTable "Alice").2.2 (by decide) (by decide)⟩

/-- Claim C3: when the configured priority display name is not among the
columns of the loaded table, the run fails with the line-66 `ValueError`,
whose message names the missing column and the sheet, and no output file is
written — the write of lines 193-194 comes after the check. -/
theorem c3_missing_priority_column (cfg : Config) (today : String) (df : Table)
    (h : df.cols.contains cfg.nom_col_priorite_affiche = false) :
    generateSuivi cfg today df = .error (colErrorMsg cfg)
    ∧ writtenFile cfg today df = none
    ∧ colErrorMsg cfg
        = "La colonne '" ++ cfg.nom_col_priorite_affiche
          ++ "' est introuvable dans la feuille '" ++ cfg.nom_feuille ++ "'." := by
  have hgen : generateSuivi cfg today df = .error (colErrorMsg cfg) := by
    unfold generateSuivi
    rw [show (fillnaTable (filteredDf (resolvedEtats cfg) df)).cols = df.cols from rfl, h]
    rfl
  refine ⟨hgen, ?_, rfl⟩
  unfold writtenFile
  rw [hgen]
  rfl

/-- Witness for C3 at a concrete input: a table without a `"Priorité"`
column makes the default-configured run raise the descriptive error and
write nothing. -/
theorem c3_witness :
    dfNoPrio.cols.contains exCfg.nom_col_priorite_affiche = false
    ∧ generateSuivi exCfg "2026-10-12" dfNoPrio = .error (colErrorMsg exCfg)
    ∧ writtenFile exCfg "2026-10-12" dfNoPrio = none :=
  ⟨by decide,
   (c3_missing_priority_column exCfg "2026-10-12" dfNoPrio (by decide)).1,
   (c3_missing_priority_column exCfg "2026-10-12" dfNoPrio (by decide)).2.1⟩

/-- Claim C5 (amended): the derived priority of a row is `0` whenever the
priority cell is missing or unparseable, and is the parsed integer
otherwise — including negative integers, so the claimed lower bound `0` does
not hold in general (see the counterexample). -/
theorem c5_prio_normalization :
    (∀ (p : String) (r : Row), toNumericCoerceInt (rowGet r p) = none → prioNum p r = 0)
    ∧ (∀ (p : String) (r : Row) (n : Int),
        toNumericCoerceInt (rowGet r p) = some n → prioNum p r = n) := by
  constructor
  · intro p r h
    unfold prioNum
    rw [h]
    rfl
  · intro p r n h
    unfold prioNum
    rw [h]
    rfl

/-- Witness for C5's amended statement: the unparseable cell `"TBD"` and a
missing cell both derive priority 0, and the cell `"-3"` derives `-3`. -/
theorem c5_witness :
    (toNumericCoerceInt (rowGet [("Priorité", some "TBD")] "Priorité") = none
      ∧ prioNum "Priorité" [("Priorité", some "TBD")] = 0)
    ∧ (toNumericCoerceInt (rowGet rowNeg "Priorité") = some (-3)
      ∧ prioNum "Priorité" rowNeg = -3) :=
  ⟨⟨by decide, c5_prio_normalization.1 "Priorité" [("Priorité", some "TBD")] (by decide)⟩,
   ⟨by decide, c5_prio_normalization.2 "Priorité" rowNeg (-3) (by decide)⟩⟩

/-- Counterexample to C5 as stated: the row with priority cell `"-3"` is
kept and rendered, and its derived priority is `-3 < 0`, so derived
priorities are not non-negative. -/
theorem c5_counterexample :
    fillnaRow rowNeg ∈ renderedRows exCfg dfNeg
    ∧ prioNum exCfg.nom_col_priorite_affiche (fillnaRow rowNeg) = -3
    ∧ prioNum exCfg.nom_col_priorite_affiche (fillnaRow rowNeg) < 0 := by
  refine ⟨by decide, by decide, by decide⟩

theorem lookup_fillnaRow (r : Row) (c : String) :
    List.lookup c (fillnaRow r) = (List.lookup c r).map (fun v => some (v.getD "")) := by
  induction r with
  | nil => rfl
  | cons e es ih =>
    rcases e with ⟨k, v⟩
    show List.lookup c ((k, some (v.getD "")) :: fillnaRow es) = _
    rw [List.lookup_cons, List.lookup_cons]
    cases h : (c == k)
    · simpa using ih
    · rfl

/-- Claim C7: data-quality issues never raise and never exclude a row — a
run whose priority column exists always succeeds; an unparseable or missing
priority cell derives 0; a missing cell in any column becomes the empty
string; and a row with allow-listed state stays in the prepared table no
matter what its other cells hold. -/
theorem c7_leniency (cfg : Config) (today : String) (df : Table)
    (hp : df.cols.contains cfg.nom_col_priorite_affiche = true) :
    (generateSuivi cfg today df).isOk = true
    ∧ (∀ (p : String) (r : Row), toNumericCoerceInt (rowGet r p) = none → prioNum p r = 0)
    ∧ (∀ (r : Row) (c : String), List.lookup c r = some none →
        rowGet (fillnaRow r) c = some "")
    ∧ (∀ r ∈ df.rows, cellIsin (rowGet r etatCol) (resolvedEtats cfg) = true →
        fillnaRow r ∈ (prepared cfg df).rows) := by
  refine ⟨?_, ?_, ?_, ?_⟩
  · unfold generateSuivi
    rw [show (fillnaTable (filteredDf (resolvedEtats cfg) df)).cols = df.cols from rfl, hp]
    rfl
  · intro p r h
    unfold prioNum
    rw [h]
    rfl
  · intro r c h
    unfold rowGet
    rw [lookup_fillnaRow, h]
    rfl
  · intro r hr hkeep
    show fillnaRow r ∈ (df.rows.filter (fun r => cellIsin (rowGet r etatCol) (resolvedEtats cfg))).map fillnaRow
    exact List.mem_map_of_mem fillnaRow (List.mem_filter.mpr ⟨hr, hkeep⟩)

/-- Witness for C7 at a concrete input: `exTable` holds a kept row with the
unparseable priority `"TBD"`; the run succeeds, the row derives priority 0
and stays in the prepared table. -/
theorem c7_witness :
    (generateSuivi exCfg "2026-10-12" exTable).isOk = true
    ∧ prioNum "Priorité"
        [("Etat", some "Non démarrée"), ("Prise en charge par", some "Alice"),
         ("Priorité", some "TBD"), ("Type (Machine/Humain/Deux)", some "Humain")] = 0
    ∧ rowGet (fillnaRow rowNoAssignee) "Prise en charge par" = some ""
    ∧ fillnaRow
        [("Etat", some "Non démarrée"), ("Prise en charge par", some "Alice"),
         ("Priorité", some "TBD"), ("Type (Machine/Humain/Deux)", some "Humain")]
      ∈ (prepared exCfg exTable).rows :=
  ⟨(c7_leniency exCfg "2026-10-12" exTable (by decide)).1,
   (c7_leniency exCfg "2026-10-12" exTable (by decide)).2.1 "Priorité" _ (by decide),
   (c7_leniency exCfg "2026-10-12" exTable (by decide)).2.2.1 rowNoAssignee
     "Prise en charge par" (by decide),
   (c7_leniency exCfg "2026-10-12" exTable (by decide)).2.2.2 _ (by decide) (by decide)⟩

theorem filter_or_perm {α : Type} (p q : α → Bool) :
    ∀ (l : List α), (∀ x ∈ l, ¬(p x = true ∧ q x = true)) →
    (l.filter (fun x => p x || q x)).Perm (l.filter p ++ l.filter q) := by
  intro l
  induction l with
  | nil => intro _; simp
  | cons a as ih =>
    intro h
    have ha := h a (List.mem_cons_self a as)
    have hrest := fun x hx => h x (List.mem_cons_of_mem a hx)
    simp only [List.filter_cons]
    cases hp : p a <;> cases hq : q a
    · simp only [Bool.or_self]
      exact ih hrest
    · simp only [Bool.or_true]
      exact ((ih hrest).cons a).trans List.perm_middle.symm
    · simp only [Bool.true_or]
      exact (ih hrest).cons a
    · exact absurd ⟨hp, hq⟩ ha

theorem join_groups_perm {α : Type} (key : α → String) :
    ∀ (ks : List String), ks.Nodup → ∀ (l : List α),
    ((ks.map (fun k => l.filter (fun r => key r == k))).flatten).Perm
      (l.filter (fun r => ks.contains (key r))) := by
  intro ks
  induction ks with
  | nil => intro _ l; simp
  | cons k ks ih =>
    intro hnd l
    simp only [List.map_cons, List.flatten_cons]
    have h1 := ih (List.nodup_cons.mp hnd).2 l
    refine (List.Perm.append_left (l.filter (fun r => key r == k)) h1).trans ?_
    have hdisj : ∀ x ∈ l, ¬((key x == k) = true ∧ (ks.contains (key x)) = true) := by
      rintro x _ ⟨h3, h4⟩
      have he : key x = k := beq_iff_eq.mp h3
      rw [he] at h4
      exact (List.nodup_cons.mp hnd).1 (contains_iff_mem.mp h4)
    refine ((filter_or_perm _ _ l hdisj).symm).trans ?_
    have hpt : ∀ x, ((key x == k) || ks.contains (key x)) = (k :: ks).contains (key x) := by
      intro x
      simp only [List.contains_eq_any_beq, List.any_cons]
    rw [List.filter_congr (fun x _ => hpt x)]

theorem flatten_map_perm {α β : Type} (f g : α → List β) :
    ∀ (l : List α), (∀ a ∈ l, (f a).Perm (g a)) →
    ((l.map f).flatten).Perm ((l.map g).flatten) := by
  intro l
  induction l with
  | nil => intro _; rfl
  | cons a as ih =>
    intro h
    simp only [List.map_cons, List.flatten_cons]
    exact (h a (List.mem_cons_self a as)).append
      (ih (fun x hx => h x (List.mem_cons_of_mem a hx)))

theorem prep_key_some {cfg : Config} {df : Table}
    (h2 : ∀ r ∈ df.rows, (List.lookup assigneeCol r).isSome = true) :
    ∀ r ∈ (prepared cfg df).rows, rowGet r assigneeCol = some (keyStr r) := by
  intro r hr
  have hr' : r ∈ (df.rows.filter
      (fun r => cellIsin (rowGet r etatCol) (resolvedEtats cfg))).map fillnaRow := hr
  obtain ⟨r0, hr0, rfl⟩ := List.mem_map.mp hr'
  have hr0' : r0 ∈ df.rows := (List.mem_filter.mp hr0).1
  obtain ⟨v, hv⟩ := Option.isSome_iff_exists.mp (h2 r0 hr0')
  unfold keyStr rowGet
  rw [lookup_fillnaRow, hv]
  rfl

/-- Claim C1 (amended): the task rows of the rendered report are exactly —
as a multiset — the rows whose state is in the allow-list (that is the
prepared table, filled) and whose assignee value is not in the on-leave
set.  Whether the assignee is empty plays no role: a kept row whose
assignee cell is missing is filled to the empty string and rendered in a
section whose name is empty (see the counterexample).  The hypotheses are
the loader contract: the preferred-order list has no duplicate names, and
every row carries the assignee column. -/
theorem c1_rendered_rows_perm (cfg : Config) (df : Table)
    (h1 : cfg.ordre_voulu.Nodup)
    (h2 : ∀ r ∈ df.rows, (List.lookup assigneeCol r).isSome = true) :
    (renderedRows cfg df).Perm
      ((prepared cfg df).rows.filter
        (fun r => !(cfg.ingenieurs_en_conge.contains (keyStr r)))) := by
  have hkey : ∀ r ∈ (prepared cfg df).rows, rowGet r assigneeCol = some (keyStr r) :=
    prep_key_some h2
  have hpoint : ∀ resp ∈ ingenieursList cfg df,
      (if cfg.ingenieurs_en_conge.contains resp then [] else sectionRows cfg df resp).Perm
        (((prepared cfg df).rows.filter
            (fun r => !(cfg.ingenieurs_en_conge.contains (keyStr r)))).filter
          (fun r => keyStr r == resp)) := by
    intro resp _
    by_cases hc : cfg.ingenieurs_en_conge.contains resp = true
    · rw [if_pos hc]
      have hnil : ((prepared cfg df).rows.filter
            (fun r => !(cfg.ingenieurs_en_conge.contains (keyStr r)))).filter
          (fun r => keyStr r == resp) = [] := by
        rw [List.filter_eq_nil_iff]
        intro r hrl hbeq
        have h4 := (List.mem_filter.mp hrl).2
        rw [beq_iff_eq.mp hbeq, hc] at h4
        exact absurd h4 (by simp)
      rw [hnil]
    · have hc' : cfg.ingenieurs_en_conge.contains resp = false := eq_false_of_ne_true hc
      rw [if_neg hc]
      have hA : (sectionRows cfg df resp).Perm (groupRows cfg df resp) :=
        perm_sortValuesModel _ _ _
      have hB : groupRows cfg df resp
          = (prepared cfg df).rows.filter (fun r => keyStr r == resp) := by
        unfold groupRows
        apply List.filter_congr
        intro r hr
        rw [hkey r hr]
        rfl
      have hC : ((prepared cfg df).rows.filter
            (fun r => !(cfg.ingenieurs_en_conge.contains (keyStr r)))).filter
          (fun r => keyStr r == resp)
          = (prepared cfg df).rows.filter (fun r => keyStr r == resp) := by
        rw [List.filter_filter]
        apply List.filter_congr
        intro r _
        by_cases hk : (keyStr r == resp) = true
        · rw [hk, beq_iff_eq.mp hk, hc']
          rfl
        · rw [eq_false_of_ne_true hk]
          rfl
      rw [hC, ← hB]
      exact hA
  have hBperm := flatten_map_perm _ _ (ingenieursList cfg df) hpoint
  have hCperm := join_groups_perm keyStr (ingenieursList cfg df)
    (nodup_ingenieursList h1)
    ((prepared cfg df).rows.filter
      (fun r => !(cfg.ingenieurs_en_conge.contains (keyStr r))))
  have hD : (((prepared cfg df).rows.filter
        (fun r => !(cfg.ingenieurs_en_conge.contains (keyStr r)))).filter
      (fun r => (ingenieursList cfg df).contains (keyStr r)))
      = ((prepared cfg df).rows.filter
        (fun r => !(cfg.ingenieurs_en_conge.contains (keyStr r)))) := by
    apply List.filter_eq_self.mpr
    intro r hrl
    have hrp : r ∈ (prepared cfg df).rows := (List.mem_filter.mp hrl).1
    exact contains_iff_mem.mpr
      (mem_ingenieursList.mpr (mem_presentList.mpr ⟨r, hrp, hkey r hrp⟩))
  exact (hBperm.trans hCperm).trans (by rw [hD])

/-- Counterexample to C1 as stated: in a run with Bob on leave,
`rowNoAssignee` (allow-listed state, *missing* assignee) is rendered — its
filled image appears among the report's task rows although its assignee
value is empty — while `rowBob` (allow-listed state, non-empty assignee) is
not rendered because Bob is on leave.  Both directions of the claimed
equivalence fail. -/
theorem c1_counterexample :
    (fillnaRow rowNoAssignee ∈ renderedRows cfgConge dfC1
      ∧ rowGet rowNoAssignee assigneeCol = none)
    ∧ (fillnaRow rowBob ∉ renderedRows cfgConge dfC1
      ∧ cellIsin (rowGet rowBob etatCol) (resolvedEtats cfgConge) = true
      ∧ rowGet rowBob assigneeCol = some "Bob") := by
  refine ⟨⟨by decide, by decide⟩, ⟨by decide, by decide, by decide⟩⟩

/-- Witness for C1's amended statement at a concrete input: the hypotheses
hold for `cfgConge`/`dfC1` and the rendered rows are a permutation of the
kept, filled, not-on-leave rows. -/
theorem c1_witness :
    (cfgConge.ordre_voulu.Nodup
      ∧ ∀ r ∈ dfC1.rows, (List.lookup assigneeCol r).isSome = true)
    ∧ (renderedRows cfgConge dfC1).Perm
        ((prepared cfgConge dfC1).rows.filter
          (fun r => !(cfgConge.ingenieurs_en_conge.contains (keyStr r)))) :=
  ⟨⟨by decide, by decide⟩,
   c1_rendered_rows_perm cfgConge dfC1 (by decide) (by decide)⟩

theorem iconGet_eq_cases (v : String) :
    iconGet v
    = (if v == "Machine" then "⚙️"
       else if v == "Humain" then "👤"
       else if v == "Deux" then "🤝" else "") := by
  unfold iconGet ICON
  cases h1 : v == "Machine" <;> cases h2 : v == "Humain" <;> cases h3 : v == "Deux" <;>
    simp [List.lookup, h1, h2, h3]

/-- Claim C8: every rendered table cell is the HTML-escaped text described
by the spec — the derived integer for the priority column, the glyph of the
three recognized task-type values (empty otherwise, leaving a leading
space) followed by a space and the value for the task-type column, the cell
text for any other column — and a rendered row is exactly the `<td>` cells
of the configured display columns in order. -/
theorem c8_cell_rendering (p : String) (colonnes : List String) (col : String) (r : Row) :
    renderCell p col r = htmlEscape (specCellText p col r)
    ∧ renderRow p colonnes r
      = "<tr>"
        ++ String.join (colonnes.map (fun c => "<td>" ++ htmlEscape (specCellText p c r) ++ "</td>"))
        ++ "</tr>\n" := by
  have hcell : ∀ c : String, renderCell p c r = htmlEscape (specCellText p c r) := by
    intro c
    unfold renderCell renderCellVal specCellText
    congr 1
    by_cases h1 : (c == p) = true
    · rw [if_pos h1, if_pos h1]
    · rw [if_neg h1, if_neg h1]
      by_cases h2 : (c == typeCol) = true
      · rw [if_pos h2, if_pos h2, iconGet_eq_cases]
      · rw [if_neg h2, if_neg h2]
  refine ⟨hcell col, ?_⟩
  unfold renderRow
  congr 2
  congr 1
  exact List.map_congr_left (fun c _ => by rw [hcell c])

/-- Claim C10: engineer names flow into the navigation entries, the anchor
slugs and the section headings verbatim — `html.escape` is never applied to
them, unlike table-cell content — so a name containing markup appears
unchanged in the document, as the `"<b>"` instances show, while escaping
that name would have produced entities. -/
theorem c10_names_unescaped (nom : String) :
    (∃ a b, navItem nom = a ++ (nom ++ b))
    ∧ (∃ a b, h2Line nom = a ++ (nom ++ b))
    ∧ navItem "<b>" = "    <li><a href='#<b>'><b></a></li>\n"
    ∧ h2Line "<b>" = "<h2 id='<b>'>Actions de <b></h2>\n"
    ∧ htmlEscape "<b>" = "&lt;b&gt;" := by
  refine ⟨⟨"    <li><a href='#" ++ (slug nom ++ "'>"), "</a></li>\n", ?_⟩,
    ⟨"<h2 id='" ++ (slug nom ++ "'>Actions de "), "</h2>\n", ?_⟩,
    by decide, by decide, by decide⟩
  · unfold navItem
    simp only [String.append_assoc]
  · unfold h2Line
    simp only [String.append_assoc]

/-- Claim C6 (amended): the head's DataTables configuration carries the
caller's `page_length` as `pageLength`, `'asc'`/`'desc'` per the ascending
flag as the initial sort direction, and the *constant* column index
`dtOrderColumn = 3` as the initial sort column — the index is not computed
from the configured display-column list.  The constant does equal the
priority column's index in the default column list (whenever the priority
display name is not one of the three column names before it), which is
where the `3` of line 117 comes from; a caller-supplied list breaks the
coincidence (see the counterexample). -/
theorem c6_datatables_config (cfg : Config) (today : String) (df : Table)
    (hdef : cfg.colonnes = none)
    (hne1 : cfg.nom_col_priorite_affiche ≠ "Bâtiments")
    (hne2 : cfg.nom_col_priorite_affiche ≠ "Intitulé de l'action")
    (hne3 : cfg.nom_col_priorite_affiche ≠ "Date souhaitée         (demandeur)") :
    htmlHead today cfg.page_length (orderDir cfg.tri_priorite_ascendant)
      = htmlHeadA ++ today ++ htmlHeadB ++ toString cfg.page_length ++ htmlHeadC
        ++ toString dtOrderColumn ++ htmlHeadC2
        ++ (if cfg.tri_priorite_ascendant then "asc" else "desc")
        ++ htmlHeadD ++ today ++ htmlHeadE
    ∧ (∃ rest, htmlOutput cfg today df
        = htmlHead today cfg.page_length (orderDir cfg.tri_priorite_ascendant) ++ rest)
    ∧ List.indexOf cfg.nom_col_priorite_affiche (resolvedColonnes cfg) = dtOrderColumn := by
  refine ⟨rfl, ?_, ?_⟩
  · refine ⟨String.join ((ingenieursList cfg df).map navItem) ++ navClose
      ++ String.join ((ingenieursList cfg df).map (sectionHtml cfg df)) ++ "</body>\n</html>", ?_⟩
    unfold htmlOutput
    simp only [String.append_assoc]
  rw [resolvedColonnes, hdef]
  have e1 : ("Bâtiments" == cfg.nom_col_priorite_affiche) = false :=
    beq_eq_false_iff_ne.mpr (Ne.symm hne1)
  have e2 : ("Intitulé de l'action" == cfg.nom_col_priorite_affiche) = false :=
    beq_eq_false_iff_ne.mpr (Ne.symm hne2)
  have e3 : ("Date souhaitée         (demandeur)" == cfg.nom_col_priorite_affiche) = false :=
    beq_eq_false_iff_ne.mpr (Ne.symm hne3)
  simp [List.indexOf_cons, e1, e2, e3, dtOrderColumn]

/-- Witness for C6's amended statement at the default configuration. -/
theorem c6_witness :
    exCfg.colonnes = none
    ∧ List.indexOf exCfg.nom_col_priorite_affiche (resolvedColonnes exCfg) = dtOrderColumn
    ∧ htmlHead "2026-10-12" exCfg.page_length (orderDir exCfg.tri_priorite_ascendant)
      = htmlHeadA ++ "2026-10-12" ++ htmlHeadB ++ toString exCfg.page_length ++ htmlHeadC
        ++ toString dtOrderColumn ++ htmlHeadC2
        ++ (if exCfg.tri_priorite_ascendant then "asc" else "desc")
        ++ htmlHeadD ++ "2026-10-12" ++ htmlHeadE :=
  ⟨rfl,
   (c6_datatables_config exCfg "2026-10-12" exTable rfl
     (by decide) (by decide) (by decide)).2.2,
   (c6_datatables_config exCfg "2026-10-12" exTable rfl
     (by decide) (by decide) (by decide)).1⟩

/-- Counterexample to C6 as stated: with the caller-supplied display
columns `["Priorité", "Etat"]` the priority column sits at index 0, while
the embedded configuration still says column `3`. -/
theorem c6_counterexample :
    List.indexOf cfgColsSwapped.nom_col_priorite_affiche (resolvedColonnes cfgColsSwapped) = 0
    ∧ dtOrderColumn = 3
    ∧ List.indexOf cfgColsSwapped.nom_col_priorite_affiche (resolvedColonnes cfgColsSwapped)
        ≠ dtOrderColumn := by
  refine ⟨by decide, rfl, by decide⟩

/-- Claim C2 is violated by the code: the within-group sort of line 167 uses
pandas' default `kind='quicksort'`, which is not stable.  On a group of 17
equal-priority rows — one more than numpy's insertion-sort threshold — the
first median-of-3 partition step swaps tied slots across the pivot, so the
argsort the code's `sort_values` call performs is not the identity and the
rendered rows do not keep their source order. -/
theorem c2_quicksort_ties_reordered :
    groupRows exCfg dfRows17 "Alice" = rows17
    ∧ (rows17.map (prioNum "Priorité")).all (fun k => k == 1) = true
    ∧ npArgsortQuicksort (rows17.map (prioNum "Priorité"))
        = [0, 14, 13, 12, 11, 10, 9, 15, 8, 6, 5, 4, 3, 2, 1, 7, 16]
    ∧ sortValuesNp "Priorité" true rows17 ≠ rows17 := by
  set_option maxRecDepth 4000 in
  refine ⟨by decide, by decide, by decide, by decide⟩
